import Mathlib

/-!
Verification development for the royal-greenhouses ticket watcher
(`check.py`): a single-shot poll cycle that fetches two pages, detects
changes via fingerprints of normalized text and extracted links, and
emits notifications (startup notice, heartbeat, "tickets page is back",
and "new ticket link on the landing page" in a strong or weak variant).

The Python source is shallowly embedded below.  External collaborators
are modelled at their boundary:
* the HTTP transport is an input (`HttpResp`, the response `requests.get`
  yields after following redirects);
* the SHA-256 digest (`hashlib.sha256(...).hexdigest()`) is an opaque
  parameter `sha : String → String` threaded through the run — the code
  only ever compares digests for equality;
* the notification channel (`tg_notify`) is modelled by collecting the
  messages, as structured `Notif` tags, in the order they are sent;
* the state file is the `RunState` that `load_state` returns and that the
  single `save_state` call would write; an aborted run yields `.error`
  (the process exits non-zero) and writes nothing;
* `time.time()` is a parameter `now` (each call within the short run is
  modelled as the same instant).

Python-specific semantics that the embedding reproduces faithfully:
truthiness of `""`/`None`/empty lists, `dict.get` defaults, `x or y`,
`sorted(set(...))` (code-point lexicographic order on distinct strings),
and the exact scanning behaviour of the regexes in `normalize_text` and
`extract_links` (leftmost, non-overlapping matches; the non-greedy
script/style block match; unmatched tags left as literal text).
`str.lower` is modelled by `pyLower`, which reproduces Python's Unicode
lowercase mapping on ASCII, the Latin-1 Supplement, Latin Extended-A and
the Kelvin/Angstrom signs, and is argued (at its definition) to yield
the same verdict as Python for every containment test the program
performs, on every input string.
-/

/-! ## Python string-ordering, case and whitespace primitives -/

/-- Double quote character (written via its code point to keep string
scanning simple). -/
def dquoteC : Char := Char.ofNat 34

/-- Single quote character. -/
def squoteC : Char := Char.ofNat 39

/-- Code-point lexicographic order on character lists: the order Python
`sorted` uses on strings. -/
def listCharLe : List Char → List Char → Bool
  | [], _ => true
  | _ :: _, [] => false
  | a :: as, b :: bs =>
    if a.toNat < b.toNat then true
    else if b.toNat < a.toNat then false
    else listCharLe as bs

/-- Python string comparison `a <= b`. -/
def strLe (a b : String) : Bool := listCharLe a.data b.data

/-- Python's string order as a relation, for use with `insertionSort`. -/
def strLeR : String → String → Prop := fun a b => strLe a b = true

instance : DecidableRel strLeR := fun a b =>
  inferInstanceAs (Decidable (strLe a b = true))

/-- Python `str.lower` as a per-character map.  The mapping is exact on
U+0000-U+017F (ASCII, Latin-1 Supplement, Latin Extended-A — so
`É → é`, `Ÿ → ÿ`, `Œ → œ`, …) and on the Kelvin sign U+212A (→ `k`) and
Angstrom sign U+212B (→ `å`); every other code point is left unchanged.
The program only ever lowers both sides of a containment test whose
needle (the marker phrase, the ticket-link keywords, the purchase-intent
keywords, `"javascript:"`) draws on the alphabet {a-z, é, space, colon}.
Of all Unicode code points, the only ones whose Python lowercase
contains a character of that alphabet and which this map does not
already handle is U+0130 (İ, whose full lowercase is the two-code-point
sequence `i` + combining dot U+0307): leaving it unchanged cannot flip
any containment verdict, because no needle contains U+0307 and every
`i` inside a needle is followed by a further needle character, so a
match can neither end at nor continue past the expanded `i`.  Hence
every lowered comparison in this file equals check.py's. -/
def pyLower (c : Char) : Char :=
  let n := c.toNat
  if 65 ≤ n ∧ n ≤ 90 then Char.ofNat (n + 32)
  else if 0xC0 ≤ n ∧ n ≤ 0xDE ∧ n ≠ 0xD7 then Char.ofNat (n + 32)
  else if 0x100 ≤ n ∧ n ≤ 0x136 ∧ n % 2 = 0 ∧ n ≠ 0x130 then
    Char.ofNat (n + 1)
  else if 0x139 ≤ n ∧ n ≤ 0x147 ∧ n % 2 = 1 then Char.ofNat (n + 1)
  else if 0x14A ≤ n ∧ n ≤ 0x176 ∧ n % 2 = 0 then Char.ofNat (n + 1)
  else if n = 0x178 then Char.ofNat 0xFF
  else if 0x179 ≤ n ∧ n ≤ 0x17D ∧ n % 2 = 1 then Char.ofNat (n + 1)
  else if n = 0x212A then 'k'
  else if n = 0x212B then Char.ofNat 0xE5
  else c

/-- Python `str.lower` on a string (as a character list). -/
def lowerList (l : List Char) : List Char := l.map pyLower

/-- The character class of Python's `\s` (and of `str.strip`) for `str`
patterns: ASCII whitespace plus the Unicode whitespace code points. -/
def isPySpace (c : Char) : Bool :=
  let n := c.toNat
  n = 32 || (9 ≤ n && n ≤ 13) || (28 ≤ n && n ≤ 31) || n = 133 || n = 160 ||
    n = 0x1680 || (0x2000 ≤ n && n ≤ 0x200a) || n = 0x2028 || n = 0x2029 ||
    n = 0x202f || n = 0x205f || n = 0x3000

/-- Case-insensitive "the text starts with this pattern" test. -/
def startsWithCI : List Char → List Char → Bool
  | [], _ => true
  | _ :: _, [] => false
  | p :: ps, c :: cs => (c.toLower == p.toLower) && startsWithCI ps cs

/-- Index of the first (case-insensitive) occurrence of `pat` in `s`. -/
def findCI (pat : List Char) : List Char → Option Nat
  | [] => if pat.isEmpty then some 0 else none
  | c :: cs =>
    if startsWithCI pat (c :: cs) then some 0
    else (findCI pat cs).map (· + 1)

/-- Python `in` on strings: contiguous-substring containment
(the empty needle is contained in everything). -/
def containsSub (needle : List Char) : List Char → Bool
  | [] => needle.isEmpty
  | c :: cs => needle.isPrefixOf (c :: cs) || containsSub needle cs

/-- Python `str.strip()`: drop leading and trailing whitespace. -/
def stripWs (l : List Char) : List Char :=
  ((l.dropWhile isPySpace).reverse.dropWhile isPySpace).reverse

/-! ## `normalize_text` (check.py lines 46-52)

`re.sub(r"<script[\s\S]*?</script>", " ", html, flags=re.I)` replaces
each leftmost, non-overlapping occurrence of `<script` followed by the
*earliest* later `</script>` (non-greedy) with one space; an opening tag
with no closing tag anywhere after it matches nothing.  `stripBlocksF`
implements exactly that scan.  It consumes at least one character per
replacement, so fuel equal to the input length makes the fuelled
recursion exhaustive. -/

def stripBlocksF (openPat closePat : List Char) : Nat → List Char → List Char
  | 0, s => s
  | fuel + 1, s =>
    match findCI openPat s with
    | none => s
    | some i =>
      match findCI closePat (s.drop (i + openPat.length)) with
      | none => s
      | some k =>
        s.take i ++ ' ' ::
          stripBlocksF openPat closePat fuel
            (s.drop (i + openPat.length + k + closePat.length))

/-- Remove every `openPat …(non-greedy)… closePat` block, replacing it
with a single space (case-insensitive), as `re.sub` does. -/
def stripBlocks (openPat closePat : List Char) (s : List Char) : List Char :=
  stripBlocksF openPat closePat s.length s

/-- Scanner for `re.sub(r"<[^>]+>", " ", text)`: once a `<` is seen the
characters are buffered until a `>`; a buffer holding at least one
character between the brackets is a match and becomes one space, while
`<>` and an unterminated `<…` are emitted literally, exactly as the
regex (which requires one or more non-`>` characters) behaves. -/
def stripTagsGo : Option (List Char) → List Char → List Char
  | none, [] => []
  | some buf, [] => buf
  | none, c :: cs =>
    if c = '<' then stripTagsGo (some [c]) cs else c :: stripTagsGo none cs
  | some buf, c :: cs =>
    if c = '>' then
      if 2 ≤ buf.length then ' ' :: stripTagsGo none cs
      else buf ++ '>' :: stripTagsGo none cs
    else stripTagsGo (some (buf ++ [c])) cs

/-- Replace every remaining tag `<[^>]+>` with a space. -/
def stripTags (s : List Char) : List Char := stripTagsGo none s

/-- Scanner for `re.sub(r"\s+", " ", text)`: each maximal whitespace run
collapses to a single space. -/
def collapseWsGo : Bool → List Char → List Char
  | _, [] => []
  | inRun, c :: cs =>
    if isPySpace c then
      if inRun then collapseWsGo true cs else ' ' :: collapseWsGo true cs
    else c :: collapseWsGo false cs

/-- Collapse whitespace runs to single spaces. -/
def collapseWs (s : List Char) : List Char := collapseWsGo false s

/-- `normalize_text` from check.py: drop script blocks, drop style
blocks, drop remaining tags, collapse whitespace, strip. -/
def normalize_text (html : String) : String :=
  let t1 := stripBlocks "<script".data "</script>".data html.data
  let t2 := stripBlocks "<style".data "</style>".data t1
  let t3 := stripTags t2
  String.mk (stripWs (collapseWs t3))

/-! ## `extract_links` (check.py lines 55-66)

`re.findall(r'href\s*=\s*["\']([^"\']+)["\']', html, flags=re.I)` scans
for `href`, optional whitespace, `=`, optional whitespace, a quote
character, then one or more characters that are neither kind of quote,
then either kind of quote; the captured group is the unquoted value.
Scanning resumes after each complete match. -/

/-- Attempt to match the `href` regex at the start of `s`.  On success,
return the captured value and the total number of characters the match
consumed (so the scan can resume after it). -/
def matchHrefAt (s : List Char) : Option (List Char × Nat) :=
  if startsWithCI "href".data s then
    let t0 := s.drop 4
    let w1 := (t0.takeWhile isPySpace).length
    let t1 := t0.drop w1
    match t1 with
    | c1 :: t2 =>
      if c1 = '=' then
        let w2 := (t2.takeWhile isPySpace).length
        let t3 := t2.drop w2
        match t3 with
        | q :: t4 =>
          if q = dquoteC ∨ q = squoteC then
            let cap := t4.takeWhile (fun c => ¬ (c = dquoteC ∨ c = squoteC))
            match t4.drop cap.length with
            | _ :: _ =>
              if 1 ≤ cap.length then
                some (cap, 4 + w1 + 1 + w2 + 1 + cap.length + 1)
              else none
            | [] => none
          else none
        | [] => none
      else none
    | [] => none
  else none

/-- The `findall` scan: leftmost, non-overlapping matches.  Every match
consumes at least seven characters and every failure advances one, so
fuel equal to the remaining length is exhaustive. -/
def scanHrefsF : Nat → List Char → List (List Char)
  | 0, _ => []
  | _, [] => []
  | fuel + 1, c :: cs =>
    match matchHrefAt (c :: cs) with
    | some (cap, n) => cap :: scanHrefsF fuel ((c :: cs).drop n)
    | none => scanHrefsF fuel cs

/-- `extract_links` from check.py: find the `href` values, strip each,
and drop empty values, fragment links and `javascript:` pseudo-links. -/
def extract_links (html : String) : List String :=
  (scanHrefsF html.data.length html.data).filterMap (fun h =>
    let h2 := stripWs h
    if h2.isEmpty then none
    else if h2.head? = some '#' then none
    else if "javascript:".data.isPrefixOf (lowerList h2) then none
    else some (String.mk h2))

/-! ## Configuration constants (check.py lines 13-18, 122-127) -/

def HOME_URL : String := "https://www.koninklijke-serres-royales.be/fr/"

def TICKETS_URL : String := "https://www.koninklijke-serres-royales.be/fr/tickets"

def NEEDLE_PHRASE : String :=
  "La date exacte de la mise en vente des tickets sera communiquée ultérieurement"

def HEARTBEAT_EVERY_SECONDS : Nat := 2 * 60 * 60

/-- Keyword list of `looks_like_ticket_link`. -/
def ticketLinkKeywords : List String :=
  ["ticket", "billetterie", "reservation", "réservation", "book", "booking",
   "checkout", "shop"]

/-- `looks_like_ticket_link` from check.py: the lowercased href contains
one of the keywords. -/
def looks_like_ticket_link (href : String) : Bool :=
  let h := lowerList href.data
  ticketLinkKeywords.any (fun k => containsSub k.data h)

/-! ## `absolute_url` (check.py lines 130-141) -/

/-- The scheme-and-host capture of `re.match(r"^(https?://[^/]+)", base)`:
`http` or `https`, `://`, then one or more non-slash characters. -/
def matchSchemeHost (base : String) : Option String :=
  let b := base.data
  if "http://".data.isPrefixOf b then
    let host := (b.drop 7).takeWhile (· ≠ '/')
    if host.isEmpty then none else some (String.mk (b.take 7 ++ host))
  else if "https://".data.isPrefixOf b then
    let host := (b.drop 8).takeWhile (· ≠ '/')
    if host.isEmpty then none else some (String.mk (b.take 8 ++ host))
  else none

/-- Python `base.rstrip("/")`. -/
def rstripSlash (l : List Char) : List Char :=
  (l.reverse.dropWhile (· = '/')).reverse

/-- Python `href.lstrip("/")`. -/
def lstripSlash (l : List Char) : List Char := l.dropWhile (· = '/')

/-- `absolute_url` from check.py: pass through absolute links, prefix
protocol-relative ones with `https:`, resolve root-relative ones against
the base's scheme+host, and join anything else onto the base. -/
def absolute_url (base href : String) : String :=
  if "http://".data.isPrefixOf href.data ∨ "https://".data.isPrefixOf href.data then
    href
  else if "//".data.isPrefixOf href.data then
    "https:" ++ href
  else if "/".data.isPrefixOf href.data then
    ((matchSchemeHost base).getD base) ++ href
  else
    String.mk (rstripSlash base.data) ++ "/" ++ String.mk (lstripSlash href.data)

/-! ## Data model

`HttpResp` is what `requests.get(url, headers=..., timeout=25,
allow_redirects=True)` hands back: the final status code, the `ETag` and
`Last-Modified` response headers, the body text and the post-redirect
URL.  It is the external-transport input of one fetch. -/

structure HttpResp where
  status : Nat
  etag : Option String
  lastModified : Option String
  body : String
  url : String
deriving DecidableEq

/-- The `{"etag": ..., "last_modified": ...}` dictionary the program
stores and replays as conditional headers (absent key = `None`). -/
structure Headers where
  etag : Option String
  lastModified : Option String
deriving DecidableEq

/-- The per-URL record `pages[url]` that check.py line 185 writes:
headers, last status, final URL, content hash and links hash. -/
structure PageRecord where
  headers : Headers
  lastStatus : Nat
  finalUrl : String
  lastHash : String
  lastLinksHash : String
deriving DecidableEq

/-- The persisted state blob: `{"pages": {...}, "last_heartbeat_ts": n}`.
The `pages` dictionary is modelled as an association list with unique
keys and lookup-only access. -/
structure RunState where
  pages : List (String × PageRecord)
  lastHeartbeatTs : Nat
deriving DecidableEq

/-- Dictionary lookup `pages.get(url)` (no default). -/
def getPage (pages : List (String × PageRecord)) (url : String) :
    Option PageRecord :=
  (pages.find? (fun p => p.1 = url)).map (·.2)

/-- Dictionary assignment `pages[url] = r`. -/
def setPage (pages : List (String × PageRecord)) (url : String)
    (r : PageRecord) : List (String × PageRecord) :=
  match pages with
  | [] => [(url, r)]
  | (k, v) :: rest =>
    if k = url then (k, r) :: rest else (k, v) :: setPage rest url r

/-- `prev.get("headers", {})` for `prev = pages.get(url, {})`. -/
def prevHeadersOf (pages : List (String × PageRecord)) (url : String) :
    Headers :=
  ((getPage pages url).map (·.headers)).getD ⟨none, none⟩

/-- `prev.get("last_hash", "")`. -/
def prevHashOf (pages : List (String × PageRecord)) (url : String) : String :=
  ((getPage pages url).map (·.lastHash)).getD ""

/-- `prev.get("last_links_hash", "")`. -/
def prevLinksHashOf (pages : List (String × PageRecord)) (url : String) :
    String :=
  ((getPage pages url).map (·.lastLinksHash)).getD ""

/-- `int(prev.get("last_status", 0) or 0)` — `0` when the URL was never
recorded. -/
def prevStatusOf (pages : List (String × PageRecord)) (url : String) : Nat :=
  ((getPage pages url).map (·.lastStatus)).getD 0

/-- `load_state` (check.py lines 33-38): a missing state file (`none`)
yields the default blob and marks the run as the first run. -/
def loadState : Option RunState → RunState × Bool
  | some s => (s, false)
  | none => (⟨[], 0⟩, true)

/-- What `fetch` returns: status, final URL, the header dictionary to
store, and `text`/`links` which are `None` exactly on a 304. -/
structure FetchResult where
  status : Nat
  finalUrl : String
  headers : Headers
  text : Option String
  links : Option (List String)
deriving DecidableEq

/-- `fetch` (check.py lines 80-111).  `requests` raising aside, the
branch structure is: status 304 keeps the previous headers and carries
no body; 404/410 is a legitimate "absent" outcome with empty text and
links; any other status in the 400-599 range makes
`r.raise_for_status()` raise (modelled as `.error status`, which aborts
the run); everything else is a successful fetch carrying the normalized
text and the extracted links. -/
def fetch (url : String) (prevHeaders : Headers) (r : HttpResp) :
    Except Nat FetchResult :=
  if r.status = 304 then
    .ok ⟨304, url, prevHeaders, none, none⟩
  else if r.status = 404 ∨ r.status = 410 then
    .ok ⟨r.status, r.url, ⟨r.etag, r.lastModified⟩, some "", some []⟩
  else if 400 ≤ r.status ∧ r.status < 600 then
    .error r.status
  else
    .ok ⟨r.status, r.url, ⟨r.etag, r.lastModified⟩,
      some (normalize_text r.body), some (extract_links r.body)⟩

/-- Predicate for "this response makes `r.raise_for_status()` raise"
(4xx/5xx other than the specially-handled 404 and 410; 304 is below the
400 range). -/
def fetchAborts (s : Nat) : Prop := 400 ≤ s ∧ s < 600 ∧ s ≠ 404 ∧ s ≠ 410

instance (s : Nat) : Decidable (fetchAborts s) := by
  unfold fetchAborts; infer_instance

/-- `sorted(set(links))`: deduplicate, then sort in Python's code-point
lexicographic string order. -/
def sortedLinks (links : List String) : List String :=
  List.insertionSort strLeR links.dedup

/-- The links fingerprint of check.py lines 182-183:
`sha256("\n".join(sorted(set(links))))`. -/
def linksFingerprint (sha : String → String) (links : List String) : String :=
  sha (String.intercalate "\n" (sortedLinks links))

/-- The mutable locals of the `for url in URLS` loop in `main`: the
`pages` dict, `changed_urls`, and the memos `home_now_text`,
`home_now_links`, `tickets_now_status`, `tickets_now_final_url`
(each initialized to `None`/empty). -/
structure LoopAcc where
  pages : List (String × PageRecord)
  changedUrls : List String
  homeNowText : Option String
  homeNowLinks : Option (List String)
  ticketsNowStatus : Option Nat
  ticketsNowFinalUrl : Option String
deriving DecidableEq

/-- One iteration of the fetch loop (check.py lines 165-203) for one
URL: fetch; on 304 `continue`; otherwise hash the text and the
deduplicated sorted links, overwrite `pages[url]`, record the memos for
the home and tickets URLs, and append to `changed_urls` iff the status,
the content hash or the links hash differs from the prior record. -/
def stepUrl (sha : String → String) (acc : LoopAcc) (url : String)
    (r : HttpResp) : Except Nat LoopAcc :=
  match fetch url (prevHeadersOf acc.pages url) r with
  | .error e => .error e
  | .ok res =>
    if res.status = 304 then .ok acc
    else
      let text := res.text.getD ""
      let links := res.links.getD []
      let newHash := sha text
      let newLinksHash := linksFingerprint sha links
      let newRec : PageRecord :=
        ⟨res.headers, res.status, res.finalUrl, newHash, newLinksHash⟩
      let acc1 : LoopAcc := { acc with pages := setPage acc.pages url newRec }
      let acc2 : LoopAcc :=
        if url = HOME_URL then
          { acc1 with homeNowText := some text, homeNowLinks := some links }
        else acc1
      let acc3 : LoopAcc :=
        if url = TICKETS_URL then
          { acc2 with ticketsNowStatus := some res.status,
                      ticketsNowFinalUrl := some res.finalUrl }
        else acc2
      if res.status ≠ prevStatusOf acc.pages url ∨
          newHash ≠ prevHashOf acc.pages url ∨
          newLinksHash ≠ prevLinksHashOf acc.pages url then
        .ok { acc3 with changedUrls := acc3.changedUrls ++ [url] }
      else .ok acc3

/-- The fetch loop over the configured URL list; a raised fetch error
propagates and aborts the run. -/
def runLoop (sha : String → String) (acc : LoopAcc) :
    List (String × HttpResp) → Except Nat LoopAcc
  | [] => .ok acc
  | (url, r) :: rest =>
    match stepUrl sha acc url r with
    | .error e => .error e
    | .ok acc1 => runLoop sha acc1 rest

/-- The notifications the program can send, as structured tags: the
startup notice, the heartbeat, the "tickets page is back" message
(carrying the URL it reports), and the strong/weak "new ticket links on
the landing page" messages (carrying the candidate link list they
print). -/
inductive Notif where
  | startup
  | heartbeat
  | reappeared (url : String)
  | strongLink (links : List String)
  | weakLink (links : List String)
deriving DecidableEq

/-- Business-signal notifications, as opposed to the startup notice and
the heartbeat. -/
def isSignal : Notif → Bool
  | .startup => false
  | .heartbeat => false
  | _ => true

/-- The reappearance notification tag. -/
def isReapp : Notif → Bool
  | .reappeared _ => true
  | _ => false

/-- Either variant of the landing-page new-link notification. -/
def isLinkNotif : Notif → Bool
  | .strongLink _ => true
  | .weakLink _ => true
  | _ => false

/-- `maybe_send_heartbeat` (check.py lines 114-119): send a liveness
ping and bump the timestamp iff at least two hours have passed.  (In
Python a clock that ran backwards would make `ts - last` negative and
the comparison false; truncated `Nat` subtraction gives the same
verdict.) -/
def heartbeat (now : Nat) (st : RunState) : List Notif × RunState :=
  if HEARTBEAT_EVERY_SECONDS ≤ now - st.lastHeartbeatTs then
    ([.heartbeat], { st with lastHeartbeatTs := now })
  else ([], st)

/-- The reappearance rule (check.py lines 212-221): evaluated only when
the tickets fetch produced a non-304 outcome this run
(`tickets_now_status is not None`); fires iff the prior tickets status
was 0 (never seen), 404 or 410 and the new status is 200.  The reported
URL falls back to `TICKETS_URL` when the recorded final URL is falsy. -/
def reappNotifs (ticketsPrevStatus : Nat) (acc : LoopAcc) : List Notif :=
  match acc.ticketsNowStatus with
  | none => []
  | some s =>
    if (ticketsPrevStatus = 0 ∨ ticketsPrevStatus = 404 ∨
        ticketsPrevStatus = 410) ∧ s = 200 then
      [.reappeared
        (match acc.ticketsNowFinalUrl with
         | some u => if u = "" then TICKETS_URL else u
         | none => TICKETS_URL)]
    else []

/-- `sorted(set(candidate_links))[:10]` applied to the ticket-looking
links of the landing page, resolved to absolute URLs
(check.py lines 225-231). -/
def linkCandidates (ls : List String) : List String :=
  (sortedLinks ((ls.filter looks_like_ticket_link).map
    (absolute_url HOME_URL))).take 10

/-- The landing-page new-link rule (check.py lines 223-249): needs a
truthy (non-`None`, non-empty) `home_now_links`, a non-empty candidate
list and the home URL classified as changed; the wording is "strong"
iff `home_now_text` is truthy (non-empty) *and* the lowercased marker
phrase is absent from the lowercased text — Python's
`home_now_text and (NEEDLE_PHRASE.lower() not in home_now_text.lower())`. -/
def linkNotifs (acc : LoopAcc) : List Notif :=
  match acc.homeNowLinks with
  | none => []
  | some ls =>
    if ls = [] then []
    else
      let cands := linkCandidates ls
      if cands ≠ [] ∧ HOME_URL ∈ acc.changedUrls then
        let phraseGone : Bool :=
          match acc.homeNowText with
          | some t =>
            (!(t = "")) &&
              !(containsSub (lowerList NEEDLE_PHRASE.data) (lowerList t.data))
          | none => false
        if phraseGone then [.strongLink cands] else [.weakLink cands]
      else []

/-- The observable outcome of one invocation: the notifications sent, in
order, and either the state blob the single `save_state` call persists
(exit code 0) or the propagated fetch error (exit code 1, nothing
saved). -/
structure RunOutcome where
  notifs : List Notif
  result : Except Nat RunState

/-- `main` (check.py lines 144-249) for one invocation.  `fileState` is
the persisted blob on disk (`none` on the first run), `now` the clock,
`hr`/`tr` the transport responses for the home and tickets URLs.  In
order: load state; on a first run send the startup notice and set the
heartbeat timestamp; remember the prior tickets status; run the fetch
loop over `URLS = [HOME_URL, TICKETS_URL]` (a fetch error aborts the
whole run before anything is saved); heartbeat check; save; and unless
this is the first run, evaluate the reappearance rule and then the
landing-page link rule. -/
def runMain (sha : String → String) (fileState : Option RunState) (now : Nat)
    (hr tr : HttpResp) : RunOutcome :=
  let (state0, isFirstRun) := loadState fileState
  let state1 := if isFirstRun then { state0 with lastHeartbeatTs := now }
                else state0
  let startNotifs : List Notif := if isFirstRun then [.startup] else []
  let ticketsPrevStatus := prevStatusOf state1.pages TICKETS_URL
  match runLoop sha ⟨state1.pages, [], none, none, none, none⟩
      [(HOME_URL, hr), (TICKETS_URL, tr)] with
  | .error e => ⟨startNotifs, .error e⟩
  | .ok acc =>
    let hb := heartbeat now { state1 with pages := acc.pages }
    if isFirstRun then ⟨startNotifs ++ hb.1, .ok hb.2⟩
    else
      ⟨startNotifs ++ hb.1 ++ reappNotifs ticketsPrevStatus acc ++
        linkNotifs acc, .ok hb.2⟩

/-! ## Observers used to state the theorems -/

/-- The text a non-304 `fetch` outcome carries: empty for an absent
(404/410) page, the normalized body otherwise. -/
def respText (r : HttpResp) : String :=
  if r.status = 404 ∨ r.status = 410 then "" else normalize_text r.body

/-- The link list a non-304 `fetch` outcome carries. -/
def respLinks (r : HttpResp) : List String :=
  if r.status = 404 ∨ r.status = 410 then [] else extract_links r.body

/-- The loop accumulator one successful non-304 iteration of the fetch
loop produces: the URL's record is overwritten, the home/tickets memos
are recorded, and the URL is appended to `changed_urls` iff status,
content hash or links hash differs from the prior record
(`stepUrl_fetched` below proves `stepUrl` returns exactly this). -/
def stepOkAcc (sha : String → String) (acc : LoopAcc) (url : String)
    (r : HttpResp) : LoopAcc where
  pages := setPage acc.pages url
    ⟨⟨r.etag, r.lastModified⟩, r.status, r.url, sha (respText r),
      linksFingerprint sha (respLinks r)⟩
  changedUrls := acc.changedUrls ++
    (if r.status ≠ prevStatusOf acc.pages url ∨
        sha (respText r) ≠ prevHashOf acc.pages url ∨
        linksFingerprint sha (respLinks r) ≠ prevLinksHashOf acc.pages url
     then [url] else [])
  homeNowText := if url = HOME_URL then some (respText r) else acc.homeNowText
  homeNowLinks :=
    if url = HOME_URL then some (respLinks r) else acc.homeNowLinks
  ticketsNowStatus :=
    if url = TICKETS_URL then some r.status else acc.ticketsNowStatus
  ticketsNowFinalUrl :=
    if url = TICKETS_URL then some r.url else acc.ticketsNowFinalUrl

/-- Boolean observer for "the run exited 0 and saved its state". -/
def resultOk : Except Nat RunState → Bool
  | .ok _ => true
  | .error _ => false

/-- The `changed_urls` list a run computes (empty if the run aborts);
an observer over the fetch loop for stating concrete scenarios. -/
def loopChangedUrls (sha : String → String) (prior : RunState)
    (hr tr : HttpResp) : List String :=
  match runLoop sha ⟨prior.pages, [], none, none, none, none⟩
      [(HOME_URL, hr), (TICKETS_URL, tr)] with
  | .ok a => a.changedUrls
  | .error _ => []

/-- The purchase-intent keyword examples the spec gives for its
phrase-and-marker rule. -/
def purchaseIntentKeywords : List String :=
  ["cart", "checkout", "buy", "time slot", "select"]

/-- Modelled from the spec: the phrase-and-marker signal condition of
spec §4.5 rule 1 — the marker phrase is absent from the normalized text
of the tickets page and at least two of the configured purchase-intent
keywords occur in the lowercased normalized text.  No function of
check.py computes this; the definition exists to exhibit inputs that
satisfy the spec's rule. -/
def specPhraseRule (text : String) : Bool :=
  !(containsSub (lowerList NEEDLE_PHRASE.data) (lowerList text.data)) &&
    decide (2 ≤ (purchaseIntentKeywords.filter
      (fun k => containsSub k.data (lowerList text.data))).length)

/-! ## The Python string order is a linear order

`sorted` needs totality, transitivity and antisymmetry of `strLe`; these
feed Mathlib's `insertionSort` lemmas when we prove that the links
fingerprint only depends on the underlying set of links. -/

theorem listCharLe_total (a : List Char) :
    ∀ b, listCharLe a b = true ∨ listCharLe b a = true := by
  induction a with
  | nil => intro b; left; rfl
  | cons x xs ih =>
    intro b
    cases b with
    | nil => right; rfl
    | cons y ys =>
      by_cases hxy : x.toNat < y.toNat
      · left; simp [listCharLe, hxy]
      · by_cases hyx : y.toNat < x.toNat
        · right; simp [listCharLe, hyx]
        · rcases ih ys with h | h
          · left; simp [listCharLe, hxy, hyx, h]
          · right; simp [listCharLe, hxy, hyx, h]

theorem listCharLe_trans (a : List Char) :
    ∀ b c, listCharLe a b = true → listCharLe b c = true →
      listCharLe a c = true := by
  induction a with
  | nil => intro b c _ _; rfl
  | cons x xs ih =>
    intro b c hab hbc
    cases b with
    | nil => simp [listCharLe] at hab
    | cons y ys =>
      cases c with
      | nil => simp [listCharLe] at hbc
      | cons z zs =>
        simp only [listCharLe] at hab hbc ⊢
        split at hab
        · split at hbc
          · simp; omega
          · split at hbc
            · exact absurd hbc (by simp)
            · simp; omega
        · split at hab
          · exact absurd hab (by simp)
          · split at hbc
            · simp; omega
            · split at hbc
              · exact absurd hbc (by simp)
              · have : ¬ x.toNat < z.toNat ∧ ¬ z.toNat < x.toNat := by omega
                simp [this.1, this.2]
                exact ih ys zs hab hbc

theorem listCharLe_antisymm (a : List Char) :
    ∀ b, listCharLe a b = true → listCharLe b a = true → a = b := by
  induction a with
  | nil =>
    intro b _ hba
    cases b with
    | nil => rfl
    | cons y ys => simp [listCharLe] at hba
  | cons x xs ih =>
    intro b hab hba
    cases b with
    | nil => simp [listCharLe] at hab
    | cons y ys =>
      simp only [listCharLe] at hab hba
      split at hab
      · rw [if_neg (by omega), if_pos (by omega)] at hba
        exact absurd hba (by simp)
      · split at hab
        · exact absurd hab (by simp)
        · have hx : x = y := by
            apply Char.ext
            apply UInt32.toNat.inj
            show x.toNat = y.toNat
            omega
          rw [if_neg (by omega), if_neg (by omega)] at hba
          rw [hx, ih ys hab hba]

instance : IsTotal String strLeR :=
  ⟨fun a b => listCharLe_total a.data b.data⟩

instance : IsTrans String strLeR :=
  ⟨fun a b c => listCharLe_trans a.data b.data c.data⟩

instance : IsAntisymm String strLeR :=
  ⟨fun a b hab hba => String.ext (listCharLe_antisymm a.data b.data hab hba)⟩

/-- Two link lists with the same members have the same
`sorted(set(...))` normal form. -/
theorem sortedLinks_eq_of_mem_iff (l1 l2 : List String)
    (h : ∀ x, x ∈ l1 ↔ x ∈ l2) : sortedLinks l1 = sortedLinks l2 := by
  have hperm : l1.dedup.Perm l2.dedup :=
    (List.perm_ext_iff_of_nodup (List.nodup_dedup l1) (List.nodup_dedup l2)).mpr
      (fun a => by rw [List.mem_dedup, List.mem_dedup]; exact h a)
  exact List.eq_of_perm_of_sorted (r := strLeR)
    (((List.perm_insertionSort _ _).trans hperm).trans
      (List.perm_insertionSort _ _).symm)
    (List.sorted_insertionSort _ _)
    (List.sorted_insertionSort _ _)


/-! ## Behaviour of `fetch` and of one loop iteration -/

theorem fetch_304 (url : String) (ph : Headers) (r : HttpResp)
    (h : r.status = 304) : fetch url ph r = .ok ⟨304, url, ph, none, none⟩ := by
  unfold fetch; rw [if_pos h]

theorem fetch_aborts_eq (url : String) (ph : Headers) (r : HttpResp)
    (h : fetchAborts r.status) : fetch url ph r = .error r.status := by
  obtain ⟨h1, h2, h3, h4⟩ := h
  unfold fetch
  rw [if_neg (by omega), if_neg (by rintro (h5 | h5) <;> simp_all),
    if_pos ⟨h1, h2⟩]

theorem fetch_fetched (url : String) (ph : Headers) (r : HttpResp)
    (h304 : r.status ≠ 304) (h : ¬ fetchAborts r.status) :
    fetch url ph r =
      .ok ⟨r.status, r.url, ⟨r.etag, r.lastModified⟩, some (respText r),
        some (respLinks r)⟩ := by
  unfold fetch respText respLinks
  rw [if_neg h304]
  by_cases h44 : r.status = 404 ∨ r.status = 410
  · rw [if_pos h44, if_pos h44, if_pos h44]
  · rw [if_neg h44, if_neg h44, if_neg h44,
      if_neg (fun hc => h ⟨hc.1, hc.2, fun h5 => h44 (Or.inl h5),
        fun h5 => h44 (Or.inr h5)⟩)]

theorem stepUrl_304 (sha : String → String) (acc : LoopAcc) (url : String)
    (r : HttpResp) (h : r.status = 304) : stepUrl sha acc url r = .ok acc := by
  unfold stepUrl
  rw [fetch_304 url (prevHeadersOf acc.pages url) r h]
  rfl

theorem stepUrl_aborts (sha : String → String) (acc : LoopAcc) (url : String)
    (r : HttpResp) (h : fetchAborts r.status) :
    stepUrl sha acc url r = .error r.status := by
  unfold stepUrl
  rw [fetch_aborts_eq url (prevHeadersOf acc.pages url) r h]

theorem stepUrl_fetched (sha : String → String) (acc : LoopAcc) (url : String)
    (r : HttpResp) (h304 : r.status ≠ 304) (h : ¬ fetchAborts r.status) :
    stepUrl sha acc url r = .ok (stepOkAcc sha acc url r) := by
  unfold stepUrl
  rw [fetch_fetched url (prevHeadersOf acc.pages url) r h304 h]
  simp only [Option.getD_some]
  rw [if_neg h304]
  unfold stepOkAcc
  by_cases uh : url = HOME_URL <;> by_cases ut : url = TICKETS_URL <;>
    simp [uh, ut] <;> split <;> simp_all


/-! ## Dictionary, heartbeat and notification-block lemmas -/

theorem getPage_setPage_self (pages : List (String × PageRecord))
    (url : String) (r : PageRecord) :
    getPage (setPage pages url r) url = some r := by
  induction pages with
  | nil => simp [setPage, getPage, List.find?]
  | cons p rest ih =>
    obtain ⟨k, v⟩ := p
    by_cases hk : k = url
    · simp [setPage, hk, getPage, List.find?]
    · simpa [setPage, hk, getPage, List.find?] using ih

theorem getPage_setPage_ne (pages : List (String × PageRecord))
    (u v : String) (r : PageRecord) (h : v ≠ u) :
    getPage (setPage pages u r) v = getPage pages v := by
  induction pages with
  | nil => simp [setPage, getPage, List.find?, Ne.symm h]
  | cons p rest ih =>
    obtain ⟨k, v2⟩ := p
    by_cases hk : k = u
    · subst hk
      simp [setPage, getPage, List.find?, Ne.symm h]
    · by_cases hkv : k = v
      · subst hkv
        simp [setPage, hk, getPage, List.find?]
      · simpa [setPage, hk, getPage, List.find?, hkv] using ih

theorem heartbeat_pages (now : Nat) (st : RunState) :
    (heartbeat now st).2.pages = st.pages := by
  unfold heartbeat; split <;> rfl

theorem heartbeat_any_isReapp (now : Nat) (st : RunState) :
    (heartbeat now st).1.any isReapp = false := by
  unfold heartbeat; split <;> rfl

theorem heartbeat_any_isSignal (now : Nat) (st : RunState) :
    (heartbeat now st).1.any isSignal = false := by
  unfold heartbeat; split <;> rfl

theorem heartbeat_filter_isLinkNotif (now : Nat) (st : RunState) :
    (heartbeat now st).1.filter isLinkNotif = [] := by
  unfold heartbeat; split <;> rfl

theorem reappNotifs_ticketsNone (p : Nat) (acc : LoopAcc)
    (h : acc.ticketsNowStatus = none) : reappNotifs p acc = [] := by
  unfold reappNotifs; rw [h]

theorem reappNotifs_any_isReapp (p : Nat) (acc : LoopAcc) (s : Nat)
    (h : acc.ticketsNowStatus = some s) :
    ((reappNotifs p acc).any isReapp = true) ↔
      ((p = 0 ∨ p = 404 ∨ p = 410) ∧ s = 200) := by
  unfold reappNotifs; rw [h]
  split
  · simp_all
  · rename_i s2 heq
    injection heq with hs
    subst hs
    split <;> simp_all [isReapp]

theorem reappNotifs_filter_isLinkNotif (p : Nat) (acc : LoopAcc) :
    (reappNotifs p acc).filter isLinkNotif = [] := by
  unfold reappNotifs
  cases acc.ticketsNowStatus with
  | none => rfl
  | some s =>
    split
    · rfl
    · split <;> rfl

theorem linkNotifs_any_isReapp (acc : LoopAcc) :
    (linkNotifs acc).any isReapp = false := by
  unfold linkNotifs
  cases acc.homeNowLinks with
  | none => rfl
  | some ls =>
    split
    · rfl
    · split
      · rfl
      · lift_lets
        intro cands
        split
        · intro pg
          split
          · split <;> rfl
          · rfl
        · intro pg
          split
          · split <;> rfl
          · rfl

theorem linkNotifs_filter_isLinkNotif (acc : LoopAcc) :
    (linkNotifs acc).filter isLinkNotif = linkNotifs acc := by
  unfold linkNotifs
  cases acc.homeNowLinks with
  | none => rfl
  | some ls =>
    split
    · rfl
    · split
      · rfl
      · lift_lets
        intro cands
        split
        · intro pg
          split
          · split <;> rfl
          · rfl
        · intro pg
          split
          · split <;> rfl
          · rfl

theorem runLoop_nil (sha : String → String) (acc : LoopAcc) :
    runLoop sha acc [] = .ok acc := rfl

theorem runLoop_cons (sha : String → String) (acc : LoopAcc) (u : String)
    (r : HttpResp) (rest : List (String × HttpResp)) :
    runLoop sha acc ((u, r) :: rest) =
      match stepUrl sha acc u r with
      | .error e => .error e
      | .ok a => runLoop sha a rest := rfl

/-! ## Unfolding one whole invocation -/

theorem runMain_some (sha : String → String) (prior : RunState) (now : Nat)
    (hr tr : HttpResp) :
    runMain sha (some prior) now hr tr =
      match runLoop sha ⟨prior.pages, [], none, none, none, none⟩
          [(HOME_URL, hr), (TICKETS_URL, tr)] with
      | .error e => ⟨[], .error e⟩
      | .ok acc =>
        ⟨(heartbeat now ⟨acc.pages, prior.lastHeartbeatTs⟩).1 ++
            reappNotifs (prevStatusOf prior.pages TICKETS_URL) acc ++
            linkNotifs acc,
          .ok (heartbeat now ⟨acc.pages, prior.lastHeartbeatTs⟩).2⟩ := by
  unfold runMain loadState
  cases hl : runLoop sha ⟨prior.pages, [], none, none, none, none⟩
      [(HOME_URL, hr), (TICKETS_URL, tr)] with
  | error e => simp [hl]
  | ok acc => simp [hl, heartbeat]

theorem runMain_none (sha : String → String) (now : Nat) (hr tr : HttpResp) :
    runMain sha none now hr tr =
      match runLoop sha ⟨[], [], none, none, none, none⟩
          [(HOME_URL, hr), (TICKETS_URL, tr)] with
      | .error e => ⟨[.startup], .error e⟩
      | .ok acc => ⟨[.startup], .ok ⟨acc.pages, now⟩⟩ := by
  unfold runMain loadState heartbeat
  cases hl : runLoop sha ⟨[], [], none, none, none, none⟩
      [(HOME_URL, hr), (TICKETS_URL, tr)] with
  | error e => simp [hl]
  | ok acc => simp [hl, Nat.sub_self, HEARTBEAT_EVERY_SECONDS]


/-! ## Inverting the two-URL loop -/

theorem home_ne_tickets : HOME_URL ≠ TICKETS_URL := by decide

theorem runLoop_two_ok (sha : String → String) (acc0 : LoopAcc)
    (hr tr : HttpResp) (acc : LoopAcc)
    (h : runLoop sha acc0 [(HOME_URL, hr), (TICKETS_URL, tr)] = .ok acc) :
    ∃ a1, stepUrl sha acc0 HOME_URL hr = .ok a1 ∧
      stepUrl sha a1 TICKETS_URL tr = .ok acc := by
  rw [runLoop_cons] at h
  cases h1 : stepUrl sha acc0 HOME_URL hr with
  | error e => rw [h1] at h; simp at h
  | ok a1 =>
    rw [h1] at h
    simp only [] at h
    rw [runLoop_cons] at h
    cases h2 : stepUrl sha a1 TICKETS_URL tr with
    | error e => rw [h2] at h; simp at h
    | ok a2 =>
      rw [h2] at h
      simp only [runLoop_nil] at h
      injection h with h3
      subst h3
      exact ⟨a1, rfl, h2⟩

theorem runLoop_two_home_aborts (sha : String → String) (acc0 : LoopAcc)
    (hr tr : HttpResp) (h : fetchAborts hr.status) :
    runLoop sha acc0 [(HOME_URL, hr), (TICKETS_URL, tr)] = .error hr.status := by
  rw [runLoop_cons, stepUrl_aborts sha acc0 HOME_URL hr h]

theorem runLoop_two_tickets_aborts (sha : String → String) (acc0 : LoopAcc)
    (hr tr : HttpResp) (hh : ¬ fetchAborts hr.status)
    (ht : fetchAborts tr.status) :
    runLoop sha acc0 [(HOME_URL, hr), (TICKETS_URL, tr)] = .error tr.status := by
  rw [runLoop_cons]
  by_cases h304 : hr.status = 304
  · rw [stepUrl_304 sha acc0 HOME_URL hr h304]
    simp only []
    rw [runLoop_cons, stepUrl_aborts sha acc0 TICKETS_URL tr ht]
  · rw [stepUrl_fetched sha acc0 HOME_URL hr h304 hh]
    simp only []
    rw [runLoop_cons,
      stepUrl_aborts sha (stepOkAcc sha acc0 HOME_URL hr) TICKETS_URL tr ht]

theorem runLoop_two_ok_of (sha : String → String) (acc0 : LoopAcc)
    (hr tr : HttpResp) (hh : ¬ fetchAborts hr.status)
    (ht : ¬ fetchAborts tr.status) :
    ∃ acc, runLoop sha acc0 [(HOME_URL, hr), (TICKETS_URL, tr)] = .ok acc := by
  rw [runLoop_cons]
  by_cases h1 : hr.status = 304
  · rw [stepUrl_304 sha acc0 HOME_URL hr h1]
    simp only []
    rw [runLoop_cons]
    by_cases h2 : tr.status = 304
    · rw [stepUrl_304 sha acc0 TICKETS_URL tr h2]
      exact ⟨acc0, rfl⟩
    · rw [stepUrl_fetched sha acc0 TICKETS_URL tr h2 ht]
      exact ⟨_, rfl⟩
  · rw [stepUrl_fetched sha acc0 HOME_URL hr h1 hh]
    simp only []
    rw [runLoop_cons]
    by_cases h2 : tr.status = 304
    · rw [stepUrl_304 sha _ TICKETS_URL tr h2]
      exact ⟨_, rfl⟩
    · rw [stepUrl_fetched sha _ TICKETS_URL tr h2 ht]
      exact ⟨_, rfl⟩

/-- After a successful home step the tickets memos are still unset. -/
theorem home_step_tickets_memos (sha : String → String) (acc0 : LoopAcc)
    (hr : HttpResp) (a1 : LoopAcc)
    (hts : acc0.ticketsNowStatus = none)
    (htu : acc0.ticketsNowFinalUrl = none)
    (h : stepUrl sha acc0 HOME_URL hr = .ok a1) :
    a1.ticketsNowStatus = none ∧ a1.ticketsNowFinalUrl = none := by
  by_cases h304 : hr.status = 304
  · rw [stepUrl_304 sha acc0 HOME_URL hr h304] at h
    injection h with h2
    subst h2
    exact ⟨hts, htu⟩
  · by_cases hab : fetchAborts hr.status
    · rw [stepUrl_aborts sha acc0 HOME_URL hr hab] at h
      cases h
    · rw [stepUrl_fetched sha acc0 HOME_URL hr h304 hab] at h
      injection h with h2
      subst h2
      constructor
      · simp [stepOkAcc, home_ne_tickets, hts]
      · simp [stepOkAcc, home_ne_tickets, htu]

/-! ## Claim theorems -/

/-- C5: on a first run (no persisted state), whatever the two fetches
return, the only notification sent is the startup notice — no
reappearance, phrase or new-link signal fires. -/
theorem c5_first_run_only_startup (sha : String → String) (now : Nat)
    (hr tr : HttpResp) :
    (runMain sha none now hr tr).notifs = [Notif.startup] := by
  rw [runMain_none]
  cases runLoop sha ⟨[], [], none, none, none, none⟩
    [(HOME_URL, hr), (TICKETS_URL, tr)] <;> rfl

/-- C9: `normalize_text` is a total, deterministic function — every
input string, malformed HTML included, has exactly one output — and a
concrete input with nested and unterminated tags is processed without
error. -/
theorem c9_normalize_total_deterministic :
    (∀ h : String, ∃! t : String, normalize_text h = t) ∧
    normalize_text "<div><p <b>nested <i>unterminated" = "nested unterminated" := by
  constructor
  · intro h
    exact ⟨normalize_text h, rfl, fun y hy => hy.symm⟩
  · decide

/-- C8: the links fingerprint is invariant under reordering and
duplication of the link list — any two lists with the same underlying
set of links fingerprint identically, so link order alone can never make
the links-hash component of the changed test differ. -/
theorem c8_linksFingerprint_set_invariant (sha : String → String)
    (l1 l2 : List String) (h : ∀ x, x ∈ l1 ↔ x ∈ l2) :
    linksFingerprint sha l1 = linksFingerprint sha l2 := by
  unfold linksFingerprint
  rw [sortedLinks_eq_of_mem_iff l1 l2 h]

/-- Witness for C8 at a concrete pair of lists that are permutations of
the same set after deduplication. -/
theorem c8_witness :
    linksFingerprint (fun s => s) ["b", "a", "b"] =
      linksFingerprint (fun s => s) ["a", "b"] :=
  c8_linksFingerprint_set_invariant (fun s => s) ["b", "a", "b"] ["a", "b"]
    (by intro x; simp only [List.mem_cons, List.not_mem_nil, or_false]; tauto)

/-- C10: a 304 outcome on the tickets fetch suppresses the reappearance
rule for that run — `tickets_now_status` stays `None`, so no
reappearance notification is sent even if the stored prior status was 0,
404 or 410. -/
theorem c10_304_no_reappearance (sha : String → String)
    (fs : Option RunState) (now : Nat) (hr tr : HttpResp)
    (h : tr.status = 304) :
    (runMain sha fs now hr tr).notifs.any isReapp = false := by
  cases fs with
  | none =>
    rw [runMain_none]
    cases runLoop sha ⟨[], [], none, none, none, none⟩
      [(HOME_URL, hr), (TICKETS_URL, tr)] <;> rfl
  | some prior =>
    rw [runMain_some]
    cases hl : runLoop sha ⟨prior.pages, [], none, none, none, none⟩
        [(HOME_URL, hr), (TICKETS_URL, tr)] with
    | error e => rfl
    | ok acc =>
      obtain ⟨a1, h1, h2⟩ := runLoop_two_ok sha _ hr tr acc hl
      rw [stepUrl_304 sha a1 TICKETS_URL tr h] at h2
      injection h2 with h3
      subst h3
      have hts : a1.ticketsNowStatus = none :=
        (home_step_tickets_memos sha _ hr a1 rfl rfl h1).1
      simp only [List.any_append, heartbeat_any_isReapp,
        linkNotifs_any_isReapp, reappNotifs_ticketsNone _ _ hts,
        List.any_nil, Bool.or_false, Bool.false_or]

/-- Witness for C10: a concrete non-first run whose tickets fetch
returns 304 while the stored tickets status is 404. -/
theorem c10_witness :
    (runMain (fun s => s)
      (some ⟨[(TICKETS_URL, ⟨⟨none, none⟩, 404, TICKETS_URL, "", ""⟩)], 0⟩) 0
      ⟨304, none, none, "", HOME_URL⟩
      ⟨304, none, none, "", TICKETS_URL⟩).notifs.any isReapp = false :=
  c10_304_no_reappearance (fun s => s)
    (some ⟨[(TICKETS_URL, ⟨⟨none, none⟩, 404, TICKETS_URL, "", ""⟩)], 0⟩) 0
    ⟨304, none, none, "", HOME_URL⟩ ⟨304, none, none, "", TICKETS_URL⟩ rfl


/-- A loop iteration for one URL never touches another URL's stored
record. -/
theorem step_preserves_other (sha : String → String) (a : LoopAcc)
    (r : HttpResp) (u v : String) (a1 : LoopAcc)
    (h : stepUrl sha a u r = .ok a1) (hne : v ≠ u) :
    getPage a1.pages v = getPage a.pages v := by
  by_cases h304 : r.status = 304
  · rw [stepUrl_304 sha a u r h304] at h
    injection h with h2
    subst h2
    rfl
  · by_cases hab : fetchAborts r.status
    · rw [stepUrl_aborts sha a u r hab] at h
      cases h
    · rw [stepUrl_fetched sha a u r h304 hab] at h
      injection h with h2
      subst h2
      simp only [stepOkAcc]
      exact getPage_setPage_ne a.pages u v _ hne

/-- C3: a non-304 loop iteration marks its URL changed iff the new
status differs from the stored prior status, or the hash of the fetched
text differs from the stored content hash, or the fingerprint of the
deduplicated sorted links differs from the stored links hash; and a URL
with no prior record (defaults: empty hashes, status 0) fetched with a
real non-zero HTTP status is always marked changed. -/
theorem c3_changed_iff (sha : String → String) (acc : LoopAcc)
    (url : String) (r : HttpResp) (acc1 : LoopAcc)
    (hok : stepUrl sha acc url r = .ok acc1) (h304 : r.status ≠ 304) :
    (acc1.changedUrls = acc.changedUrls ++ [url] ∨
      acc1.changedUrls = acc.changedUrls) ∧
    (acc1.changedUrls = acc.changedUrls ++ [url] ↔
      (r.status ≠ prevStatusOf acc.pages url ∨
        sha (respText r) ≠ prevHashOf acc.pages url ∨
        linksFingerprint sha (respLinks r) ≠ prevLinksHashOf acc.pages url)) ∧
    (getPage acc.pages url = none → r.status ≠ 0 →
      acc1.changedUrls = acc.changedUrls ++ [url]) := by
  have hab : ¬ fetchAborts r.status := by
    intro hab
    rw [stepUrl_aborts sha acc url r hab] at hok
    cases hok
  rw [stepUrl_fetched sha acc url r h304 hab] at hok
  injection hok with h2
  subst h2
  simp only [stepOkAcc]
  refine ⟨?_, ?_, ?_⟩
  · by_cases hc : r.status ≠ prevStatusOf acc.pages url ∨
        sha (respText r) ≠ prevHashOf acc.pages url ∨
        linksFingerprint sha (respLinks r) ≠ prevLinksHashOf acc.pages url
    · left; rw [if_pos hc]
    · right; rw [if_neg hc]; simp
  · by_cases hc : r.status ≠ prevStatusOf acc.pages url ∨
        sha (respText r) ≠ prevHashOf acc.pages url ∨
        linksFingerprint sha (respLinks r) ≠ prevLinksHashOf acc.pages url
    · rw [if_pos hc]
      simp [hc]
    · rw [if_neg hc]
      simp only [List.append_nil]
      constructor
      · intro hfalse
        exact absurd (List.self_eq_append_right.mp hfalse) (by simp)
      · intro hcc
        exact absurd hcc hc
  · intro hnone hstatus
    rw [if_pos (Or.inl (by simp [prevStatusOf, hnone, hstatus]))]

/-- Witness for C3: a first-ever observation of the home URL with
status 200 is marked changed. -/
theorem c3_witness :
    (stepOkAcc (fun s => s) ⟨[], [], none, none, none, none⟩ HOME_URL
        ⟨200, none, none, "", HOME_URL⟩).changedUrls =
      ([] : List String) ++ [HOME_URL] :=
  (c3_changed_iff (fun s => s) ⟨[], [], none, none, none, none⟩ HOME_URL
      ⟨200, none, none, "", HOME_URL⟩ _
      (stepUrl_fetched (fun s => s) ⟨[], [], none, none, none, none⟩ HOME_URL
        ⟨200, none, none, "", HOME_URL⟩ (by decide) (by decide))
      (by decide)).2.2 rfl (by decide)

/-- C4: a 304 fetch outcome leaves the URL's whole stored record
(headers/validators, status, final URL, content hash, links hash)
untouched by the run; the run may still complete, heartbeat and save
(the hypothesis is a completed run that did save `st`). -/
theorem c4_304_preserves_record (sha : String → String)
    (fs : Option RunState) (now : Nat) (hr tr : HttpResp) (st : RunState)
    (hok : (runMain sha fs now hr tr).result = .ok st) :
    (hr.status = 304 →
      getPage st.pages HOME_URL = getPage (loadState fs).1.pages HOME_URL) ∧
    (tr.status = 304 →
      getPage st.pages TICKETS_URL =
        getPage (loadState fs).1.pages TICKETS_URL) := by
  have main : ∀ (pages0 : List (String × PageRecord)) (acc : LoopAcc),
      runLoop sha ⟨pages0, [], none, none, none, none⟩
          [(HOME_URL, hr), (TICKETS_URL, tr)] = .ok acc →
      (hr.status = 304 → getPage acc.pages HOME_URL = getPage pages0 HOME_URL) ∧
      (tr.status = 304 →
        getPage acc.pages TICKETS_URL = getPage pages0 TICKETS_URL) := by
    intro pages0 acc hl
    obtain ⟨a1, h1, h2⟩ := runLoop_two_ok sha _ hr tr acc hl
    constructor
    · intro h304
      have hp2 : getPage acc.pages HOME_URL = getPage a1.pages HOME_URL :=
        step_preserves_other sha a1 tr TICKETS_URL HOME_URL acc h2
          home_ne_tickets
      rw [stepUrl_304 sha _ HOME_URL hr h304] at h1
      injection h1 with h3
      subst h3
      exact hp2
    · intro h304
      rw [stepUrl_304 sha a1 TICKETS_URL tr h304] at h2
      injection h2 with h3
      subst h3
      exact step_preserves_other sha _ hr HOME_URL TICKETS_URL a1 h1
        (Ne.symm home_ne_tickets)
  cases fs with
  | none =>
    rw [runMain_none] at hok
    cases hl : runLoop sha ⟨[], [], none, none, none, none⟩
        [(HOME_URL, hr), (TICKETS_URL, tr)] with
    | error e => rw [hl] at hok; cases hok
    | ok acc =>
      rw [hl] at hok
      injection hok with h3
      subst h3
      exact main [] acc hl
  | some prior =>
    rw [runMain_some] at hok
    cases hl : runLoop sha ⟨prior.pages, [], none, none, none, none⟩
        [(HOME_URL, hr), (TICKETS_URL, tr)] with
    | error e => rw [hl] at hok; cases hok
    | ok acc =>
      rw [hl] at hok
      injection hok with h3
      subst h3
      have hp := heartbeat_pages now ⟨acc.pages, prior.lastHeartbeatTs⟩
      rw [hp]
      exact main prior.pages acc hl

/-- Witness for C4: a completed run in which both fetches return 304
leaves the stored tickets record untouched. -/
theorem c4_witness :
    getPage
        (⟨[(TICKETS_URL, ⟨⟨none, none⟩, 404, TICKETS_URL, "", ""⟩)], 5⟩ :
          RunState).pages TICKETS_URL =
      getPage (loadState (some
        ⟨[(TICKETS_URL, ⟨⟨none, none⟩, 404, TICKETS_URL, "", ""⟩)], 5⟩)).1.pages
        TICKETS_URL :=
  (c4_304_preserves_record (fun s => s)
      (some ⟨[(TICKETS_URL, ⟨⟨none, none⟩, 404, TICKETS_URL, "", ""⟩)], 5⟩) 0
      ⟨304, none, none, "", HOME_URL⟩ ⟨304, none, none, "", TICKETS_URL⟩ _
      rfl).2 rfl


/-- If the stored tickets status is none of 0, 404, 410, no run from
that state can emit a reappearance notification. -/
theorem no_reapp_of_prev_present (sha : String → String) (prior : RunState)
    (now : Nat) (hr tr : HttpResp)
    (h : ¬(prevStatusOf prior.pages TICKETS_URL = 0 ∨
        prevStatusOf prior.pages TICKETS_URL = 404 ∨
        prevStatusOf prior.pages TICKETS_URL = 410)) :
    (runMain sha (some prior) now hr tr).notifs.any isReapp = false := by
  rw [runMain_some]
  cases hl : runLoop sha ⟨prior.pages, [], none, none, none, none⟩
      [(HOME_URL, hr), (TICKETS_URL, tr)] with
  | error e => rfl
  | ok acc =>
    simp only [List.any_append, heartbeat_any_isReapp, linkNotifs_any_isReapp,
      Bool.or_false, Bool.false_or]
    cases hts : acc.ticketsNowStatus with
    | none => rw [reappNotifs_ticketsNone _ _ hts]; rfl
    | some s2 =>
      cases hany : (reappNotifs (prevStatusOf prior.pages TICKETS_URL)
          acc).any isReapp with
      | false => rfl
      | true =>
        exact absurd ((reappNotifs_any_isReapp
          (prevStatusOf prior.pages TICKETS_URL) acc s2 hts).mp hany).1 h

/-- C2: in a non-first run whose tickets fetch yields a non-304 outcome
(and whose home fetch does not abort the run), the reappearance
notification is sent iff the stored prior tickets status is 0
(never seen), 404 or 410 and the new status is 200; and after any
completed run that fetched the tickets page with status 200, no
subsequent run (whatever its fetches return) sends it again. -/
theorem c2_reappearance_iff (sha : String → String) (prior : RunState)
    (now : Nat) (hr tr : HttpResp)
    (hhome : ¬ fetchAborts hr.status) (h304 : tr.status ≠ 304) :
    ((runMain sha (some prior) now hr tr).notifs.any isReapp = true ↔
      ((prevStatusOf prior.pages TICKETS_URL = 0 ∨
        prevStatusOf prior.pages TICKETS_URL = 404 ∨
        prevStatusOf prior.pages TICKETS_URL = 410) ∧ tr.status = 200)) ∧
    (∀ (st : RunState) (now2 : Nat) (hr2 tr2 : HttpResp),
      (runMain sha (some prior) now hr tr).result = .ok st →
      tr.status = 200 →
      (runMain sha (some st) now2 hr2 tr2).notifs.any isReapp = false) := by
  constructor
  · by_cases htab : fetchAborts tr.status
    · rw [runMain_some, runLoop_two_tickets_aborts sha
        ⟨prior.pages, [], none, none, none, none⟩ hr tr hhome htab]
      simp only [List.any_nil]
      constructor
      · intro hx; cases hx
      · rintro ⟨_, h200⟩
        obtain ⟨ha, hb, hc, hd⟩ := htab
        omega
    · obtain ⟨acc, hl⟩ := runLoop_two_ok_of sha
        ⟨prior.pages, [], none, none, none, none⟩ hr tr hhome htab
      obtain ⟨a1, h1, h2⟩ := runLoop_two_ok sha _ hr tr acc hl
      have hmem := home_step_tickets_memos sha _ hr a1 rfl rfl h1
      rw [stepUrl_fetched sha a1 TICKETS_URL tr h304 htab] at h2
      injection h2 with h4
      have hts : acc.ticketsNowStatus = some tr.status := by
        rw [← h4]
        simp [stepOkAcc]
      rw [runMain_some, hl]
      simp only [List.any_append, heartbeat_any_isReapp,
        linkNotifs_any_isReapp, Bool.or_false, Bool.false_or]
      exact reappNotifs_any_isReapp (prevStatusOf prior.pages TICKETS_URL)
        acc tr.status hts
  · intro st now2 hr2 tr2 hok h200
    have hprev : prevStatusOf st.pages TICKETS_URL = 200 := by
      rw [runMain_some] at hok
      cases hl : runLoop sha ⟨prior.pages, [], none, none, none, none⟩
          [(HOME_URL, hr), (TICKETS_URL, tr)] with
      | error e => rw [hl] at hok; cases hok
      | ok acc =>
        rw [hl] at hok
        injection hok with h3
        subst h3
        rw [heartbeat_pages now ⟨acc.pages, prior.lastHeartbeatTs⟩]
        obtain ⟨a1, h1, h2⟩ := runLoop_two_ok sha _ hr tr acc hl
        have htab : ¬ fetchAborts tr.status := by
          rw [h200]; rintro ⟨ha, _, _, _⟩; omega
        rw [stepUrl_fetched sha a1 TICKETS_URL tr h304 htab] at h2
        injection h2 with h4
        subst h4
        simp only [stepOkAcc, prevStatusOf, getPage_setPage_self, Option.map_some,
          Option.getD_some]
        exact h200
    exact no_reapp_of_prev_present sha st now2 hr2 tr2
      (by rw [hprev]; rintro (hx | hx | hx) <;> cases hx)

/-- Witness for C2: stored tickets status 404, new tickets fetch 200,
home fetch 304 — the reappearance notification is sent. -/
theorem c2_witness :
    (runMain (fun s => s)
      (some ⟨[(TICKETS_URL, ⟨⟨none, none⟩, 404, TICKETS_URL, "", ""⟩)], 0⟩) 0
      ⟨304, none, none, "", HOME_URL⟩
      ⟨200, none, none, "tickets", TICKETS_URL⟩).notifs.any isReapp = true :=
  (c2_reappearance_iff (fun s => s)
      ⟨[(TICKETS_URL, ⟨⟨none, none⟩, 404, TICKETS_URL, "", ""⟩)], 0⟩ 0
      ⟨304, none, none, "", HOME_URL⟩ ⟨200, none, none, "tickets", TICKETS_URL⟩
      (by decide) (by decide)).1.mpr (by decide)


/-- Counterexample to C6 as stated: a fetch status of 301 is not 2xx,
not 304, not 404 and not 410, yet the run does NOT abort — it completes
and saves (exit 0) — because `r.raise_for_status()` only raises for
statuses in the 400-599 range. -/
theorem c6_counterexample :
    ¬(200 ≤ 301 ∧ 301 ≤ 299) ∧ (301 : Nat) ≠ 304 ∧ (301 : Nat) ≠ 404 ∧
      (301 : Nat) ≠ 410 ∧
      resultOk (runMain (fun s => s) none 0
        ⟨301, none, none, "", HOME_URL⟩
        ⟨301, none, none, "", TICKETS_URL⟩).result = true := by
  decide

/-- C6 amended: a run aborts with the propagated status — exiting
non-zero, sending no signal notification and saving nothing — iff some
fetch returns a status in 400-599 other than 404/410 (exactly the
statuses `raise_for_status` raises for); any other statuses (2xx, 304,
404/410, and also 1xx/3xx such as 301) let the run complete, in which
case the state is saved exactly once. -/
theorem c6_abort_characterization (sha : String → String)
    (fs : Option RunState) (now : Nat) (hr tr : HttpResp) :
    (fetchAborts hr.status →
      (runMain sha fs now hr tr).result = .error hr.status ∧
      (runMain sha fs now hr tr).notifs.any isSignal = false) ∧
    (¬ fetchAborts hr.status → fetchAborts tr.status →
      (runMain sha fs now hr tr).result = .error tr.status ∧
      (runMain sha fs now hr tr).notifs.any isSignal = false) ∧
    (¬ fetchAborts hr.status → ¬ fetchAborts tr.status →
      ∃ st, (runMain sha fs now hr tr).result = .ok st) := by
  cases fs with
  | none =>
    refine ⟨?_, ?_, ?_⟩
    · intro h
      rw [runMain_none, runLoop_two_home_aborts sha _ hr tr h]
      exact ⟨rfl, rfl⟩
    · intro hh ht
      rw [runMain_none, runLoop_two_tickets_aborts sha _ hr tr hh ht]
      exact ⟨rfl, rfl⟩
    · intro hh ht
      obtain ⟨acc, hl⟩ := runLoop_two_ok_of sha _ hr tr hh ht
      rw [runMain_none, hl]
      exact ⟨_, rfl⟩
  | some prior =>
    refine ⟨?_, ?_, ?_⟩
    · intro h
      rw [runMain_some, runLoop_two_home_aborts sha _ hr tr h]
      exact ⟨rfl, rfl⟩
    · intro hh ht
      rw [runMain_some, runLoop_two_tickets_aborts sha _ hr tr hh ht]
      exact ⟨rfl, rfl⟩
    · intro hh ht
      obtain ⟨acc, hl⟩ := runLoop_two_ok_of sha _ hr tr hh ht
      rw [runMain_some, hl]
      exact ⟨_, rfl⟩

/-- Witness for C6 (amended): a 500 on the home fetch aborts the run
with error 500 and no signal notification. -/
theorem c6_witness :
    (runMain (fun s => s) none 0 ⟨500, none, none, "", HOME_URL⟩
        ⟨200, none, none, "", TICKETS_URL⟩).result = .error 500 ∧
      (runMain (fun s => s) none 0 ⟨500, none, none, "", HOME_URL⟩
        ⟨200, none, none, "", TICKETS_URL⟩).notifs.any isSignal = false :=
  (c6_abort_characterization (fun s => s) none 0
      ⟨500, none, none, "", HOME_URL⟩ ⟨200, none, none, "", TICKETS_URL⟩).1
    (by decide)


/-- A link that matches a ticket keyword guarantees a non-empty
candidate list. -/
theorem linkCandidates_ne_nil (ls : List String) (l : String) (hl : l ∈ ls)
    (hlk : looks_like_ticket_link l = true) : linkCandidates ls ≠ [] := by
  unfold linkCandidates
  intro hfalse
  rcases List.take_eq_nil_iff.mp hfalse with h10 | hnil
  · exact absurd h10 (by decide)
  · have hmem : absolute_url HOME_URL l ∈
        sortedLinks ((ls.filter looks_like_ticket_link).map
          (absolute_url HOME_URL)) := by
      unfold sortedLinks
      rw [(List.perm_insertionSort strLeR _).mem_iff, List.mem_dedup]
      exact List.mem_map_of_mem _ (List.mem_filter.mpr ⟨hl, hlk⟩)
    rw [hnil] at hmem
    cases hmem

/-- Counterexample to C7 as stated: a landing page whose normalized text
is empty (only markup) but which carries a ticket link.  The marker
phrase is absent from that (empty) normalized text, so the claim
requires the strong wording; the code sends the WEAK variant, because
Python's `home_now_text and (...)` is falsy for the empty string. -/
theorem c7_counterexample :
    normalize_text "<a href=\"/fr/tickets\"></a>" = "" ∧
    containsSub (lowerList NEEDLE_PHRASE.data)
      (lowerList (normalize_text "<a href=\"/fr/tickets\"></a>").data) =
      false ∧
    (runMain (fun s => s)
      (some ⟨[(HOME_URL, ⟨⟨none, none⟩, 200, HOME_URL, "x", "y"⟩)], 0⟩) 0
      ⟨200, none, none, "<a href=\"/fr/tickets\"></a>", HOME_URL⟩
      ⟨304, none, none, "", TICKETS_URL⟩).notifs =
      [Notif.weakLink
        ["https://www.koninklijke-serres-royales.be/fr/tickets"]] := by
  decide

/-- C7 amended: in a completed non-first run in which the landing page
is classified as changed and at least one extracted landing link matches
a ticket keyword, exactly one new-link notification is sent, and both
variants carry the resolved, deduplicated, sorted, 10-capped candidate
list; the wording is strong iff the landing page's normalized text is
NON-EMPTY and the marker phrase is absent from it (an empty text gets
the weak wording via Python truthiness), weak otherwise. -/
theorem c7_new_link_notification (sha : String → String) (prior : RunState)
    (now : Nat) (hr tr : HttpResp) (acc : LoopAcc) (ls : List String)
    (t : String)
    (hl : runLoop sha ⟨prior.pages, [], none, none, none, none⟩
        [(HOME_URL, hr), (TICKETS_URL, tr)] = .ok acc)
    (hls : acc.homeNowLinks = some ls)
    (ht : acc.homeNowText = some t)
    (hmatch : ∃ l ∈ ls, looks_like_ticket_link l = true)
    (hch : HOME_URL ∈ acc.changedUrls) :
    (runMain sha (some prior) now hr tr).notifs.filter isLinkNotif =
      [if t ≠ "" ∧ containsSub (lowerList NEEDLE_PHRASE.data)
          (lowerList t.data) = false
        then Notif.strongLink (linkCandidates ls)
        else Notif.weakLink (linkCandidates ls)] := by
  obtain ⟨l, hlmem, hlk⟩ := hmatch
  have hcand := linkCandidates_ne_nil ls l hlmem hlk
  rw [runMain_some, hl]
  simp only [List.filter_append, heartbeat_filter_isLinkNotif,
    reappNotifs_filter_isLinkNotif, linkNotifs_filter_isLinkNotif,
    List.nil_append, List.append_nil]
  unfold linkNotifs
  rw [hls, ht]
  simp only []
  rw [if_neg (show ¬(ls = []) from List.ne_nil_of_mem hlmem)]
  show (if linkCandidates ls ≠ [] ∧ HOME_URL ∈ acc.changedUrls then
      if (!decide (t = "") && !containsSub (lowerList NEEDLE_PHRASE.data)
          (lowerList t.data)) = true
      then [Notif.strongLink (linkCandidates ls)]
      else [Notif.weakLink (linkCandidates ls)]
    else []) = _
  rw [if_pos (⟨hcand, hch⟩ :
    linkCandidates ls ≠ [] ∧ HOME_URL ∈ acc.changedUrls)]
  by_cases ht0 : t = "" <;>
    cases hcs : containsSub (lowerList NEEDLE_PHRASE.data)
      (lowerList t.data) <;>
    simp [ht0, hcs]

/-- Witness for C7 (amended): a landing page with non-empty text, no
marker phrase and a ticket link — the strong variant is sent, listing
the resolved candidate. -/
theorem c7_witness :
    (runMain (fun s => s)
      (some ⟨[(HOME_URL, ⟨⟨none, none⟩, 200, HOME_URL, "q", "w"⟩)], 0⟩) 0
      ⟨200, none, none, "hello <a href=\"/fr/tickets\">here</a>", HOME_URL⟩
      ⟨304, none, none, "", TICKETS_URL⟩).notifs.filter isLinkNotif =
      [Notif.strongLink
        ["https://www.koninklijke-serres-royales.be/fr/tickets"]] :=
  c7_new_link_notification (fun s => s)
    ⟨[(HOME_URL, ⟨⟨none, none⟩, 200, HOME_URL, "q", "w"⟩)], 0⟩ 0
    ⟨200, none, none, "hello <a href=\"/fr/tickets\">here</a>", HOME_URL⟩
    ⟨304, none, none, "", TICKETS_URL⟩ _ _ _ rfl rfl rfl
    ⟨"/fr/tickets", by decide, by decide⟩ (by decide)


/-- The heartbeat messages depend only on the stored timestamp. -/
theorem heartbeat_fst (now : Nat) (st : RunState) :
    (heartbeat now st).1 =
      if HEARTBEAT_EVERY_SECONDS ≤ now - st.lastHeartbeatTs then
        [Notif.heartbeat] else [] := by
  unfold heartbeat
  split <;> rfl

/-- The reappearance block reads only the two tickets memos. -/
theorem reappNotifs_congr (p : Nat) (a b : LoopAcc)
    (h1 : a.ticketsNowStatus = b.ticketsNowStatus)
    (h2 : a.ticketsNowFinalUrl = b.ticketsNowFinalUrl) :
    reappNotifs p a = reappNotifs p b := by
  unfold reappNotifs
  rw [h1, h2]

/-- The link block reads only the home memos and whether the home URL
is in `changed_urls`. -/
theorem linkNotifs_congr (a b : LoopAcc)
    (h1 : a.homeNowText = b.homeNowText)
    (h2 : a.homeNowLinks = b.homeNowLinks)
    (h3 : (HOME_URL ∈ a.changedUrls) = (HOME_URL ∈ b.changedUrls)) :
    linkNotifs a = linkNotifs b := by
  unfold linkNotifs
  rw [h1, h2]
  simp only [h3]

/-- Appending `[TICKETS_URL]` (or nothing) never changes whether the
home URL is in the changed list. -/
theorem home_mem_append_if (A : List String) (C : Prop) [Decidable C] :
    (HOME_URL ∈ A ++ (if C then [TICKETS_URL] else [])) = (HOME_URL ∈ A) := by
  apply propext
  constructor
  · intro hx
    rcases List.mem_append.mp hx with h | h
    · exact h
    · split at h
      · rcases List.mem_singleton.mp h with h2
        exact absurd h2 home_ne_tickets
      · cases h
  · exact fun hx => List.mem_append.mpr (Or.inl hx)

/-- Counterexample to C1 as stated: a non-first run whose tickets page
is classified as changed and whose normalized tickets text satisfies the
spec's phrase-and-marker condition (marker phrase absent, two
purchase-intent keywords present), yet the run sends NO notification at
all — check.py implements no phrase-and-marker rule. -/
theorem c1_counterexample :
    specPhraseRule (normalize_text "<p>checkout buy now</p>") = true ∧
    TICKETS_URL ∈ loopChangedUrls (fun s => s)
      ⟨[(TICKETS_URL, ⟨⟨none, none⟩, 200, TICKETS_URL, "x", "y"⟩)], 0⟩
      ⟨304, none, none, "", HOME_URL⟩
      ⟨200, none, none, "<p>checkout buy now</p>", TICKETS_URL⟩ ∧
    (runMain (fun s => s)
      (some ⟨[(TICKETS_URL, ⟨⟨none, none⟩, 200, TICKETS_URL, "x", "y"⟩)], 0⟩)
      0 ⟨304, none, none, "", HOME_URL⟩
      ⟨200, none, none, "<p>checkout buy now</p>", TICKETS_URL⟩).notifs =
      [] := by
  decide

/-- C1 amended: check.py sends no phrase-and-marker notification for the
tickets target; the tickets response body never influences which
notifications a run sends (it only changes the stored fingerprints).
The marker phrase is only consulted on the landing page to choose the
strong/weak wording of the new-link notification. -/
theorem c1_tickets_text_never_notifies (sha : String → String)
    (fs : Option RunState) (now : Nat) (hr : HttpResp) (s : Nat)
    (e lm : Option String) (b1 b2 u : String) :
    (runMain sha fs now hr ⟨s, e, lm, b1, u⟩).notifs =
      (runMain sha fs now hr ⟨s, e, lm, b2, u⟩).notifs := by
  cases fs with
  | none =>
    rw [runMain_none, runMain_none]
    cases runLoop sha ⟨[], [], none, none, none, none⟩
        [(HOME_URL, hr), (TICKETS_URL, ⟨s, e, lm, b1, u⟩)] <;>
      cases runLoop sha ⟨[], [], none, none, none, none⟩
        [(HOME_URL, hr), (TICKETS_URL, ⟨s, e, lm, b2, u⟩)] <;>
      rfl
  | some prior =>
    rw [runMain_some, runMain_some]
    by_cases hab : fetchAborts hr.status
    · rw [runLoop_two_home_aborts sha _ hr _ hab,
        runLoop_two_home_aborts sha _ hr _ hab]
    · have hhome : ∃ a1, stepUrl sha ⟨prior.pages, [], none, none, none,
          none⟩ HOME_URL hr = .ok a1 := by
        by_cases h304 : hr.status = 304
        · exact ⟨_, stepUrl_304 sha _ HOME_URL hr h304⟩
        · exact ⟨_, stepUrl_fetched sha _ HOME_URL hr h304 hab⟩
      obtain ⟨a1, h1⟩ := hhome
      rw [runLoop_cons, runLoop_cons, h1]
      simp only []
      by_cases hs304 : s = 304
      · rw [runLoop_cons, runLoop_cons,
          stepUrl_304 sha a1 TICKETS_URL ⟨s, e, lm, b1, u⟩ hs304,
          stepUrl_304 sha a1 TICKETS_URL ⟨s, e, lm, b2, u⟩ hs304]
      · by_cases hsab : fetchAborts s
        · rw [runLoop_cons, runLoop_cons,
            stepUrl_aborts sha a1 TICKETS_URL ⟨s, e, lm, b1, u⟩ hsab,
            stepUrl_aborts sha a1 TICKETS_URL ⟨s, e, lm, b2, u⟩ hsab]
        · rw [runLoop_cons, runLoop_cons,
            stepUrl_fetched sha a1 TICKETS_URL ⟨s, e, lm, b1, u⟩ hs304 hsab,
            stepUrl_fetched sha a1 TICKETS_URL ⟨s, e, lm, b2, u⟩ hs304 hsab]
          simp only [runLoop_nil]
          rw [heartbeat_fst, heartbeat_fst]
          have hreapp := reappNotifs_congr (prevStatusOf prior.pages
              TICKETS_URL)
            (stepOkAcc sha a1 TICKETS_URL ⟨s, e, lm, b1, u⟩)
            (stepOkAcc sha a1 TICKETS_URL ⟨s, e, lm, b2, u⟩) rfl rfl
          have hlink := linkNotifs_congr
            (stepOkAcc sha a1 TICKETS_URL ⟨s, e, lm, b1, u⟩)
            (stepOkAcc sha a1 TICKETS_URL ⟨s, e, lm, b2, u⟩)
            (by simp [stepOkAcc, Ne.symm home_ne_tickets])
            (by simp [stepOkAcc, Ne.symm home_ne_tickets])
            (by
              simp only [stepOkAcc]
              rw [home_mem_append_if, home_mem_append_if])
          rw [hreapp, hlink]

/-! ## Concrete evaluations exercising the embedding -/

example :
    (runMain (fun s => s) none 0 ⟨200, none, none, "x", HOME_URL⟩
      ⟨200, none, none, "y", TICKETS_URL⟩).notifs = [.startup] := by decide

example :
    (runMain (fun s => s)
      (some ⟨[(TICKETS_URL, ⟨⟨none, none⟩, 404, TICKETS_URL, "", ""⟩)], 0⟩) 0
      ⟨304, none, none, "", HOME_URL⟩
      ⟨200, none, none, "tickets", TICKETS_URL⟩).notifs =
    [.reappeared TICKETS_URL] := by decide

example :
    (runMain (fun s => s)
      (some ⟨[(HOME_URL, ⟨⟨none, none⟩, 200, HOME_URL, "q", "w"⟩)], 9000⟩) 10000
      ⟨200, none, none, "hello <a href=\"/fr/tickets\">here</a>", HOME_URL⟩
      ⟨304, none, none, "", TICKETS_URL⟩).notifs =
    [.strongLink ["https://www.koninklijke-serres-royales.be/fr/tickets"]] := by
  decide

example : normalize_text "<div><b>unterminated" = "unterminated" := by decide
example : normalize_text "<p> a  b </p>" = "a b" := by decide
example : normalize_text "<script>x<p>y</script>z" = "z" := by decide
example : normalize_text "A<a href=\"/fr/tickets\"></a>" = "A" := by decide
example : extract_links "<a href=\"/fr/tickets\">x</a>" = ["/fr/tickets"] := by decide
example : extract_links "<a HREF = '#top'>x</a><a href=\"b\"" = ["b"] := by decide
example : extract_links "<a href=\"unterminated" = [] := by decide
example : extract_links "<a href = 'a\"b'>" = ["a"] := by decide
example : looks_like_ticket_link "/fr/TickeTs" = true := by decide
example : looks_like_ticket_link "/RÉSERVATION" = true := by decide
example : pyLower 'É' = 'é' := by decide
example : containsSub (lowerList NEEDLE_PHRASE.data)
    (lowerList ("AVANT : LA DATE EXACTE DE LA MISE EN VENTE DES TICKETS " ++
      "SERA COMMUNIQUÉE ULTÉRIEUREMENT.").data) = true := by decide
example : absolute_url HOME_URL "/fr/tickets" =
    "https://www.koninklijke-serres-royales.be/fr/tickets" := by decide
example : absolute_url HOME_URL "x/y" =
    "https://www.koninklijke-serres-royales.be/fr/x/y" := by decide
example : absolute_url HOME_URL "//cdn.example/t" = "https://cdn.example/t" := by decide
